import Mathlib

/-!
Shallow embedding of the screener-strategies aggregate service:
`AggregateService` of `src/services/aggregate.py`, together with the
event schema of `src/services/events.py`.

Python dictionaries keyed by `strategy_id` / `symbol` become total
functions into `Option`, floats become rationals, and the side effects
of a handler invocation (SQLite writes, Redis mirror writes, pub/sub
messages, in-memory map mutations) are recorded as an explicit effect
trace listed in source order.
-/

namespace Agg

/-- Python truthiness of an optional float: `None` and `0.0` are falsy. -/
def truthy (o : Option ℚ) : Bool :=
  match o with
  | none => false
  | some v => if v = 0 then false else true

/-- Update of a nested dict `d[a][b] := v` (with `v := none` modelling `pop`). -/
def upd2 {α : Type} (f : String → String → Option α) (a b : String) (v : Option α) :
    String → String → Option α :=
  fun x y => if x = a ∧ y = b then v else f x y

/-- The `action` literal of `StrategySignalEvent`. -/
inductive Action
  | OPEN_LONG | OPEN_SHORT | CLOSE_LONG | CLOSE_SHORT
  deriving DecidableEq, Repr

/-- Models `action.startswith("OPEN")`. -/
def Action.isOpen : Action → Bool
  | .OPEN_LONG => true
  | .OPEN_SHORT => true
  | _ => false

/-- Order kind tag set by `_add_order` (`"MARKET"` or `"LIMIT"`). -/
inductive OrderType
  | MARKET | LIMIT
  deriving DecidableEq, Repr

/-- Position side string (`"LONG"` / `"SHORT"`). -/
inductive Side
  | LONG | SHORT
  deriving DecidableEq, Repr

/-- The `side` literal of `PositionStateEvent` (`LONG`, `SHORT`, `FLAT`). -/
inductive StateSide
  | LONG | SHORT | FLAT
  deriving DecidableEq, Repr

def Side.toStateSide : Side → StateSide
  | .LONG => .LONG
  | .SHORT => .SHORT

/-- The `side` literal of `OrderExecutionEvent` (`BUY` / `SELL`). -/
inductive BuySell
  | BUY | SELL
  deriving DecidableEq, Repr

/-- The `status` literal of `OrderExecutionEvent` and of the stored order row. -/
inductive OrderStatus
  | FILLED | PARTIALLY_FILLED | CANCELLED
  deriving DecidableEq, Repr

/-- Close reason string used by `close_position` (`"SL"`, `"TP"`, `"SIGNAL"`). -/
inductive Reason
  | SL | TP | SIGNAL
  deriving DecidableEq, Repr

/-- The `trigger_type` literal of `TradeTerminalEvent`: the schema admits only
`TP` and `SL` (`Literal['TP', 'SL']` in `events.py`). -/
inductive TriggerType
  | TP | SL
  deriving DecidableEq, Repr

/-- Models line 213 of `aggregate.py`:
`reason if reason in ["TP", "SL"] else "TP"`. -/
def reasonToTrigger : Reason → TriggerType
  | .TP => .TP
  | .SL => .SL
  | .SIGNAL => .TP

/-- Payload of a `StrategySignalEvent` (plus the `event_id` of its envelope,
which `check_order_fill` reads as the order id). -/
structure SignalData where
  event_id : String
  strategy_id : String
  symbol : String
  action : Action
  risk_pct : Option ℚ
  close_percent : Option ℚ
  price : Option ℚ
  leverage : ℚ
  stop_loss : Option ℚ
  take_profit : Option ℚ
  deriving DecidableEq, Repr

/-- A pending order as stored by `_add_order`: the raw signal dict with the
extra key `order_type`. -/
structure Order where
  event_id : String
  strategy_id : String
  symbol : String
  action : Action
  risk_pct : Option ℚ
  close_percent : Option ℚ
  price : Option ℚ
  leverage : ℚ
  stop_loss : Option ℚ
  take_profit : Option ℚ
  order_type : OrderType
  deriving DecidableEq, Repr

/-- Models `data['order_type'] = order_type` followed by storing `data`. -/
def Order.ofSignal (sig : SignalData) (ot : OrderType) : Order :=
  { event_id := sig.event_id, strategy_id := sig.strategy_id, symbol := sig.symbol,
    action := sig.action, risk_pct := sig.risk_pct, close_percent := sig.close_percent,
    price := sig.price, leverage := sig.leverage, stop_loss := sig.stop_loss,
    take_profit := sig.take_profit, order_type := ot }

/-- A position dict as created by `check_order_fill`.  The `last_close` field
models the optional dict key read by `pos.get('last_close', pos['entry_price'])`
in `close_position`; no code path ever writes that key, so it is `none` at
creation and never updated. -/
structure Position where
  strategy_id : String
  symbol : String
  side : Side
  size : ℚ
  entry_price : ℚ
  entry_time : ℚ
  stop_loss : Option ℚ
  take_profit : Option ℚ
  unrealised_pnl : ℚ
  last_close : Option ℚ
  deriving DecidableEq, Repr

/-- A `CandleUpdateEvent` payload (the `indicators` map is never read by the
aggregate service and is omitted). -/
structure Candle where
  strategy_id : String
  symbol : String
  tf : String
  opn : ℚ
  high : ℚ
  low : ℚ
  close : ℚ
  volume : ℚ
  timestamp : ℚ
  deriving DecidableEq, Repr

/-- A `StrategySetTPSLEvent` as seen by `update_tp_sl`, at the level of the
decoded JSON dict: the outer `Option` is key presence (`'stop_loss' in data`),
the inner `Option` the value stored under the key (which may be null). -/
structure TPSLRequest where
  strategy_id : String
  symbol : String
  stop_loss : Option (Option ℚ)
  take_profit : Option (Option ℚ)
  deriving DecidableEq, Repr

/-- Row of the durable `trades` table written by `storage.save_trade`
(`metadata` carries the close reason). -/
structure ClosedTrade where
  strategy_id : String
  symbol : String
  side : Side
  entry_price : ℚ
  exit_price : ℚ
  qty : ℚ
  pnl : ℚ
  entry_time : ℚ
  exit_time : ℚ
  reason : Reason
  deriving DecidableEq, Repr

/-- Row of the durable `orders` table written by `storage.save_order`
(`ty` is the `type` column). -/
structure OrderRecord where
  order_id : String
  strategy_id : String
  symbol : String
  side : Action
  price : ℚ
  qty : ℚ
  ty : OrderType
  status : OrderStatus
  deriving DecidableEq, Repr

/-- `OrderExecutionEvent` of `events.py`. -/
structure OrderExecutionEvent where
  strategy_id : String
  symbol : String
  order_id : String
  order_type : OrderType
  side : BuySell
  price : ℚ
  qty : ℚ
  status : OrderStatus
  deriving DecidableEq, Repr

/-- `PositionStateEvent` of `events.py`. -/
structure PositionStateEvent where
  strategy_id : String
  symbol : String
  side : StateSide
  size : ℚ
  entry_price : ℚ
  unrealised_pnl : ℚ
  stop_loss : Option ℚ
  take_profit : Option ℚ
  deriving DecidableEq, Repr

/-- `TradeTerminalEvent` of `events.py`. -/
structure TradeTerminalEvent where
  strategy_id : String
  symbol : String
  trigger_type : TriggerType
  exit_price : ℚ
  pnl : ℚ
  realised_pnl : ℚ
  deriving DecidableEq, Repr

/-- An event published on the strategy events channel by the service. -/
inductive OutEvent
  | orderExec (e : OrderExecutionEvent)
  | positionState (e : PositionStateEvent)
  | tradeTerminal (e : TradeTerminalEvent)
  deriving DecidableEq, Repr

/-- One externally visible effect of a handler invocation, in source order:
in-memory map mutations, SQLite (Ledger) writes, Redis (Mirror) writes and
published notices. -/
inductive Effect
  | memSetOrder (strategy_id symbol : String) (o : Order)
  | memDelOrder (strategy_id symbol : String)
  | memSetPosition (strategy_id symbol : String) (p : Position)
  | memDelPosition (strategy_id symbol : String)
  | ledgerSaveOrder (r : OrderRecord)
  | ledgerSaveTrade (t : ClosedTrade)
  | mirrorSet (strategy_id stateType symbol : String)
  | mirrorDel (strategy_id stateType symbol : String)
  | publish (e : OutEvent)
  deriving DecidableEq, Repr

/-- The four effect categories named by the state synchronisation discipline. -/
inductive EffKind
  | mem | ledger | mirror | publishNotice
  deriving DecidableEq, Repr

def effKind : Effect → EffKind
  | .memSetOrder _ _ _ => .mem
  | .memDelOrder _ _ => .mem
  | .memSetPosition _ _ _ => .mem
  | .memDelPosition _ _ => .mem
  | .ledgerSaveOrder _ => .ledger
  | .ledgerSaveTrade _ => .ledger
  | .mirrorSet _ _ _ => .mirror
  | .mirrorDel _ _ _ => .mirror
  | .publish _ => .publishNotice

/-- Rank of an effect category in the order claimed by the spec:
memory first, then Ledger, then Mirror, then publish. -/
def kindRank : EffKind → Nat
  | .mem => 0
  | .ledger => 1
  | .mirror => 2
  | .publishNotice => 3

/-- A list of ranks is weakly increasing. -/
def ranksSorted : List Nat → Bool
  | [] => true
  | [_] => true
  | a :: b :: t => if a ≤ b then ranksSorted (b :: t) else false

/-- The spec's claimed per-handler effect order
(memory, then Ledger, then Mirror, then publish) as a predicate on a trace. -/
def specOrdered (l : List Effect) : Bool :=
  ranksSorted (l.map (fun e => kindRank (effKind e)))

/-- Projection of the ledger trade rows out of an effect trace. -/
def effTrade : Effect → Option ClosedTrade
  | .ledgerSaveTrade t => some t
  | _ => none

/-- Projection of the published trade-terminal notices out of an effect trace. -/
def effTerminal : Effect → Option TradeTerminalEvent
  | .publish (.tradeTerminal e) => some e
  | _ => none

/-- The authoritative in-memory state of `AggregateService`:
`self.positions` and `self.orders`, both dicts of dicts. -/
structure EngineState where
  positions : String → String → Option Position
  orders : String → String → Option Order

/-- Fresh service state: both maps empty. -/
def initState : EngineState :=
  { positions := fun _ _ => none, orders := fun _ _ => none }

/-- `_add_order` (lines 253-258): store the signal dict with the extra
`order_type` key under `orders[strategy_id][symbol]` and mirror it. -/
def addOrder (s : EngineState) (sig : SignalData) (ot : OrderType) :
    EngineState × List Effect :=
  let ord := Order.ofSignal sig ot
  ({ s with orders := upd2 s.orders sig.strategy_id sig.symbol (some ord) },
   [Effect.memSetOrder sig.strategy_id sig.symbol ord,
    Effect.mirrorSet sig.strategy_id "orders" sig.symbol])

/-- `close_position` (lines 179-229).  `price_override` and `timestamp` go
through Python truthiness (`price_override or pos.get('last_close', ...)`,
`timestamp or time.time()`); `now` stands for `time.time()`.  Source effect
order: save_trade, pop position, mirror delete, publish terminal notice,
publish FLAT position notice. -/
def closePosition (s : EngineState) (strategy_id symbol : String) (pos : Position)
    (price_override : Option ℚ) (reason : Reason) (timestamp : Option ℚ) (now : ℚ) :
    EngineState × List Effect :=
  let exit_price : ℚ :=
    if truthy price_override then price_override.getD 0
    else pos.last_close.getD pos.entry_price
  let ts : ℚ := if truthy timestamp then timestamp.getD 0 else now
  let pnl : ℚ :=
    if pos.side = .LONG then (exit_price - pos.entry_price) * pos.size
    else (pos.entry_price - exit_price) * pos.size
  let trade : ClosedTrade :=
    { strategy_id := strategy_id, symbol := symbol, side := pos.side,
      entry_price := pos.entry_price, exit_price := exit_price, qty := pos.size,
      pnl := pnl, entry_time := pos.entry_time, exit_time := ts, reason := reason }
  let term : TradeTerminalEvent :=
    { strategy_id := strategy_id, symbol := symbol,
      trigger_type := reasonToTrigger reason,
      exit_price := exit_price, pnl := pnl, realised_pnl := pnl }
  let flat : PositionStateEvent :=
    { strategy_id := strategy_id, symbol := symbol, side := .FLAT,
      size := 0, entry_price := 0, unrealised_pnl := 0,
      stop_loss := none, take_profit := none }
  ({ s with positions := upd2 s.positions strategy_id symbol none },
   [Effect.ledgerSaveTrade trade,
    Effect.memDelPosition strategy_id symbol,
    Effect.mirrorDel strategy_id "positions" symbol,
    Effect.publish (OutEvent.tradeTerminal term),
    Effect.publish (OutEvent.positionState flat)])

/-- Fill condition of `check_order_fill` (lines 100-105): a MARKET order
always fills; a LIMIT order fills iff `candle.low <= price <= candle.high`. -/
def orderFills (order : Order) (candle : Candle) : Bool :=
  if order.order_type = .MARKET then true
  else decide (candle.low ≤ order.price.getD 0 ∧ order.price.getD 0 ≤ candle.high)

/-- Fill price of `check_order_fill`: the candle open for a MARKET order,
else the stored limit price. -/
def fillPrice (order : Order) (candle : Candle) : ℚ :=
  if order.order_type = .MARKET then candle.opn else order.price.getD 0

/-- The position dict built on fill (lines 110-121). -/
def mkFilledPos (strategy_id symbol : String) (order : Order) (fill_price : ℚ)
    (candle : Candle) : Position :=
  { strategy_id := strategy_id, symbol := symbol,
    side := if order.action = .OPEN_LONG then .LONG else .SHORT,
    size := 1, entry_price := fill_price, entry_time := candle.timestamp,
    stop_loss := order.stop_loss, take_profit := order.take_profit,
    unrealised_pnl := 0, last_close := none }

/-- `check_order_fill` (lines 95-152).  Source effect order on fill: set
position in memory, pop order from memory, publish the execution notice,
save the order row to the Ledger, mirror-delete the order, mirror-set the
position. -/
def checkOrderFill (s : EngineState) (strategy_id symbol : String) (order : Order)
    (candle : Candle) : EngineState × List Effect :=
  if orderFills order candle then
    let fill_price := fillPrice order candle
    let side : Side := if order.action = .OPEN_LONG then .LONG else .SHORT
    let new_pos := mkFilledPos strategy_id symbol order fill_price candle
    let ev : OrderExecutionEvent :=
      { strategy_id := strategy_id, symbol := symbol, order_id := order.event_id,
        order_type := order.order_type,
        side := if side = .LONG then .BUY else .SELL,
        price := fill_price, qty := 1, status := .FILLED }
    let row : OrderRecord :=
      { order_id := order.event_id, strategy_id := strategy_id, symbol := symbol,
        side := order.action, price := fill_price, qty := 1,
        ty := order.order_type, status := .FILLED }
    ({ s with
        positions := upd2 s.positions strategy_id symbol (some new_pos),
        orders := upd2 s.orders strategy_id symbol none },
     [Effect.memSetPosition strategy_id symbol new_pos,
      Effect.memDelOrder strategy_id symbol,
      Effect.publish (OutEvent.orderExec ev),
      Effect.ledgerSaveOrder row,
      Effect.mirrorDel strategy_id "orders" symbol,
      Effect.mirrorSet strategy_id "positions" symbol])
  else (s, [])

/-- Exit decision of `check_position_exit` (lines 155-175): SL is tested
before TP on each side, and `if sl and ...` / `if tp and ...` are Python
truthiness tests on the bound. -/
def exitSignal (pos : Position) (candle : Candle) : Option (ℚ × Reason) :=
  let sl := pos.stop_loss
  let tp := pos.take_profit
  if pos.side = .LONG then
    if truthy sl = true ∧ candle.low ≤ sl.getD 0 then some (sl.getD 0, .SL)
    else if truthy tp = true ∧ candle.high ≥ tp.getD 0 then some (tp.getD 0, .TP)
    else none
  else
    if truthy sl = true ∧ candle.high ≥ sl.getD 0 then some (sl.getD 0, .SL)
    else if truthy tp = true ∧ candle.low ≤ tp.getD 0 then some (tp.getD 0, .TP)
    else none

/-- `check_position_exit` (lines 154-177): on an exit decision the final
`if exit_price:` is one more truthiness test before the close. -/
def checkPositionExit (s : EngineState) (strategy_id symbol : String) (pos : Position)
    (candle : Candle) (now : ℚ) : EngineState × List Effect :=
  match exitSignal pos candle with
  | some (exit_price, reason) =>
    if exit_price = 0 then (s, [])
    else closePosition s strategy_id symbol pos (some exit_price) reason
      (some candle.timestamp) now
  | none => (s, [])

/-- `process_signal` (lines 53-75): an OPEN action stores a pending order
(MARKET when the price field is falsy, LIMIT otherwise); a CLOSE action
closes an existing position with no price override and reason SIGNAL. -/
def processSignal (s : EngineState) (sig : SignalData) (now : ℚ) :
    EngineState × List Effect :=
  if sig.action.isOpen then
    if truthy sig.price = false then addOrder s sig .MARKET
    else addOrder s sig .LIMIT
  else
    match s.positions sig.strategy_id sig.symbol with
    | some pos => closePosition s sig.strategy_id sig.symbol pos none .SIGNAL none now
    | none => (s, [])

/-- `process_candle` (lines 77-93): first the pending-order check, then the
exit check against the (possibly just filled) position re-read from the
updated state. -/
def processCandle (s : EngineState) (c : Candle) (now : ℚ) :
    EngineState × List Effect :=
  let r1 :=
    match s.orders c.strategy_id c.symbol with
    | some o => checkOrderFill s c.strategy_id c.symbol o c
    | none => (s, [])
  let r2 :=
    match r1.1.positions c.strategy_id c.symbol with
    | some p => checkPositionExit r1.1 c.strategy_id c.symbol p c now
    | none => (r1.1, [])
  (r2.1, r1.2 ++ r2.2)

/-- `update_tp_sl` (lines 231-251): a field of the position is overwritten
iff its key is present in the request dict; when a position exists the
handler then publishes a position-state notice and mirrors the position. -/
def updateTPSL (s : EngineState) (r : TPSLRequest) : EngineState × List Effect :=
  match s.positions r.strategy_id r.symbol with
  | none => (s, [])
  | some pos =>
    let pos' : Position :=
      { pos with
        stop_loss := match r.stop_loss with | some v => v | none => pos.stop_loss,
        take_profit := match r.take_profit with | some v => v | none => pos.take_profit }
    let ev : PositionStateEvent :=
      { strategy_id := r.strategy_id, symbol := r.symbol,
        side := pos'.side.toStateSide, size := pos'.size,
        entry_price := pos'.entry_price, unrealised_pnl := 0,
        stop_loss := pos'.stop_loss, take_profit := pos'.take_profit }
    let memEffs : List Effect :=
      if r.stop_loss.isSome ∨ r.take_profit.isSome then
        [Effect.memSetPosition r.strategy_id r.symbol pos']
      else []
    ({ s with positions := upd2 s.positions r.strategy_id r.symbol (some pos') },
     memEffs ++ [Effect.publish (OutEvent.positionState ev),
                 Effect.mirrorSet r.strategy_id "positions" r.symbol])

/-- An inbound event recognised by `handle_event` (lines 43-51); `now` stands
for the wall-clock reading `time.time()` during the invocation. -/
inductive InEvent
  | signal (sig : SignalData) (now : ℚ)
  | candle (c : Candle) (now : ℚ)
  | tpsl (r : TPSLRequest)
  deriving Repr

/-- `handle_event`: route by the `event_type` discriminator. -/
def handleEvent (s : EngineState) : InEvent → EngineState × List Effect
  | .signal sig now => processSignal s sig now
  | .candle c now => processCandle s c now
  | .tpsl r => updateTPSL s r

/-- Process a sequence of inbound events, accumulating the effect trace. -/
def runEvents (s : EngineState) : List InEvent → EngineState × List Effect
  | [] => (s, [])
  | e :: es =>
    let r := handleEvent s e
    let r2 := runEvents r.1 es
    (r2.1, r.2 ++ r2.2)

/-- A run in which every OPEN signal arrives while its slot holds no
Position (the guard forced by the counterexample to claim C1). -/
def goodStep (s : EngineState) : InEvent → Bool
  | .signal sig _ =>
    if sig.action.isOpen then (s.positions sig.strategy_id sig.symbol).isNone else true
  | _ => true

def goodRun (s : EngineState) : List InEvent → Bool
  | [] => true
  | e :: es => goodStep s e && goodRun (handleEvent s e).1 es

/-! ### Helper lemmas -/

theorem upd2_same {α : Type} (f : String → String → Option α) (a b : String)
    (v : Option α) : upd2 f a b v a b = v := by
  simp [upd2]

theorem upd2_other {α : Type} (f : String → String → Option α) (a b : String)
    (v : Option α) (x y : String) (h : ¬(x = a ∧ y = b)) :
    upd2 f a b v x y = f x y := by
  simp [upd2, h]

theorem closePosition_orders (s : EngineState) (sid sym : String) (pos : Position)
    (po : Option ℚ) (r : Reason) (ts : Option ℚ) (now : ℚ) :
    (closePosition s sid sym pos po r ts now).1.orders = s.orders := rfl

theorem closePosition_positions_slot (s : EngineState) (sid sym : String)
    (pos : Position) (po : Option ℚ) (r : Reason) (ts : Option ℚ) (now : ℚ) :
    (closePosition s sid sym pos po r ts now).1.positions sid sym = none := by
  simp [closePosition, upd2_same]

theorem checkPositionExit_orders (s : EngineState) (sid sym : String) (pos : Position)
    (c : Candle) (now : ℚ) :
    (checkPositionExit s sid sym pos c now).1.orders = s.orders := by
  cases h : exitSignal pos c with
  | none => simp [checkPositionExit, h]
  | some pr =>
    obtain ⟨ep, r⟩ := pr
    by_cases h0 : ep = 0
    · simp [checkPositionExit, h, h0]
    · simp [checkPositionExit, h, h0, closePosition_orders]

theorem processCandle_orders_of_none (s : EngineState) (c : Candle) (now : ℚ)
    (hs : s.orders c.strategy_id c.symbol = none) :
    (processCandle s c now).1.orders = s.orders := by
  simp only [processCandle, hs]
  cases hp : s.positions c.strategy_id c.symbol with
  | none => simp [hp]
  | some p => simp [hp, checkPositionExit_orders]

/-- The per-slot "no PendingOrder together with a Position" invariant. -/
def NoBoth (s : EngineState) : Prop :=
  ∀ a b, s.orders a b = none ∨ s.positions a b = none

theorem noBoth_init : NoBoth initState := fun _ _ => Or.inl rfl

theorem noBoth_addOrder (s : EngineState) (sig : SignalData) (ot : OrderType)
    (hp : s.positions sig.strategy_id sig.symbol = none) (h : NoBoth s) :
    NoBoth (addOrder s sig ot).1 := by
  intro a b
  by_cases hab : a = sig.strategy_id ∧ b = sig.symbol
  · right
    show s.positions a b = none
    rw [hab.1, hab.2]
    exact hp
  · have hx := h a b
    simpa [addOrder, upd2_other _ _ _ _ _ _ hab] using hx

theorem noBoth_closePosition (s : EngineState) (sid sym : String) (pos : Position)
    (po : Option ℚ) (r : Reason) (ts : Option ℚ) (now : ℚ) (h : NoBoth s) :
    NoBoth (closePosition s sid sym pos po r ts now).1 := by
  intro a b
  by_cases hab : a = sid ∧ b = sym
  · right
    show upd2 s.positions sid sym none a b = none
    rw [hab.1, hab.2, upd2_same]
  · have hx := h a b
    simpa [closePosition, upd2_other _ _ _ _ _ _ hab] using hx

theorem noBoth_checkOrderFill (s : EngineState) (sid sym : String) (ord : Order)
    (c : Candle) (h : NoBoth s) : NoBoth (checkOrderFill s sid sym ord c).1 := by
  unfold checkOrderFill
  split
  · intro a b
    by_cases hab : a = sid ∧ b = sym
    · left
      show upd2 s.orders sid sym none a b = none
      rw [hab.1, hab.2, upd2_same]
    · have hx := h a b
      simpa [upd2_other _ _ _ _ _ _ hab] using hx
  · exact h

theorem noBoth_checkPositionExit (s : EngineState) (sid sym : String) (pos : Position)
    (c : Candle) (now : ℚ) (h : NoBoth s) :
    NoBoth (checkPositionExit s sid sym pos c now).1 := by
  cases he : exitSignal pos c with
  | none => simpa [checkPositionExit, he] using h
  | some pr =>
    obtain ⟨ep, r⟩ := pr
    by_cases h0 : ep = 0
    · simpa [checkPositionExit, he, h0] using h
    · simpa [checkPositionExit, he, h0] using
        noBoth_closePosition s sid sym pos (some ep) r (some c.timestamp) now h

theorem noBoth_updateTPSL (s : EngineState) (r : TPSLRequest) (h : NoBoth s) :
    NoBoth (updateTPSL s r).1 := by
  cases hp : s.positions r.strategy_id r.symbol with
  | none => simpa [updateTPSL, hp] using h
  | some pos =>
    intro a b
    by_cases hab : a = r.strategy_id ∧ b = r.symbol
    · left
      rcases h r.strategy_id r.symbol with ho | hpn
      · show (updateTPSL s r).1.orders a b = none
        rw [hab.1, hab.2]
        simpa [updateTPSL, hp] using ho
      · rw [hp] at hpn
        exact absurd hpn (by simp)
    · have hx := h a b
      simpa [updateTPSL, hp, upd2_other _ _ _ _ _ _ hab] using hx

theorem noBoth_processSignal (s : EngineState) (sig : SignalData) (now : ℚ)
    (h : NoBoth s)
    (hg : sig.action.isOpen = true → s.positions sig.strategy_id sig.symbol = none) :
    NoBoth (processSignal s sig now).1 := by
  by_cases ho : sig.action.isOpen = true
  · by_cases hq : truthy sig.price = false
    · simpa [processSignal, ho, hq] using noBoth_addOrder s sig .MARKET (hg ho) h
    · simpa [processSignal, ho, hq] using noBoth_addOrder s sig .LIMIT (hg ho) h
  · cases hp : s.positions sig.strategy_id sig.symbol with
    | none => simpa [processSignal, ho, hp] using h
    | some pos =>
      simpa [processSignal, ho, hp] using
        noBoth_closePosition s sig.strategy_id sig.symbol pos none .SIGNAL none now h

theorem noBoth_processCandle (s : EngineState) (c : Candle) (now : ℚ) (h : NoBoth s) :
    NoBoth (processCandle s c now).1 := by
  simp only [processCandle]
  cases ho : s.orders c.strategy_id c.symbol with
  | none =>
    cases hp : s.positions c.strategy_id c.symbol with
    | none => simpa [ho, hp] using h
    | some p =>
      simpa [ho, hp] using noBoth_checkPositionExit s c.strategy_id c.symbol p c now h
  | some o =>
    have h1 := noBoth_checkOrderFill s c.strategy_id c.symbol o c h
    cases hp : (checkOrderFill s c.strategy_id c.symbol o c).1.positions
        c.strategy_id c.symbol with
    | none => simpa [ho, hp] using h1
    | some p =>
      simpa [ho, hp] using
        noBoth_checkPositionExit _ c.strategy_id c.symbol p c now h1

theorem noBoth_handleEvent (s : EngineState) (e : InEvent) (h : NoBoth s)
    (hg : goodStep s e = true) : NoBoth (handleEvent s e).1 := by
  cases e with
  | signal sig now =>
    refine noBoth_processSignal s sig now h ?_
    intro ho
    simpa [goodStep, ho, Option.isNone_iff_eq_none] using hg
  | candle c now => exact noBoth_processCandle s c now h
  | tpsl r => exact noBoth_updateTPSL s r h

theorem noBoth_runEvents (evs : List InEvent) :
    ∀ s, NoBoth s → goodRun s evs = true → NoBoth (runEvents s evs).1 := by
  induction evs with
  | nil => intro s h _; exact h
  | cons e es ih =>
    intro s h hg
    simp only [goodRun, Bool.and_eq_true] at hg
    simp only [runEvents]
    exact ih _ (noBoth_handleEvent s e h hg.1) hg.2

/-- Every stored position has `last_close = none`: the `last_close` dict key
is never written by any handler. -/
def FreshPos (s : EngineState) : Prop :=
  ∀ a b p, s.positions a b = some p → p.last_close = none

theorem freshPos_init : FreshPos initState := by
  intro a b p h
  exact absurd h (by simp [initState])

theorem freshPos_addOrder (s : EngineState) (sig : SignalData) (ot : OrderType)
    (h : FreshPos s) : FreshPos (addOrder s sig ot).1 := by
  intro a b p hp
  exact h a b p hp

theorem freshPos_closePosition (s : EngineState) (sid sym : String) (pos : Position)
    (po : Option ℚ) (r : Reason) (ts : Option ℚ) (now : ℚ) (h : FreshPos s) :
    FreshPos (closePosition s sid sym pos po r ts now).1 := by
  intro a b p hp
  by_cases hab : a = sid ∧ b = sym
  · rw [closePosition] at hp
    simp only at hp
    rw [hab.1, hab.2, upd2_same] at hp
    exact absurd hp (by simp)
  · rw [closePosition] at hp
    simp only at hp
    rw [upd2_other _ _ _ _ _ _ hab] at hp
    exact h a b p hp

theorem freshPos_checkOrderFill (s : EngineState) (sid sym : String) (ord : Order)
    (c : Candle) (h : FreshPos s) : FreshPos (checkOrderFill s sid sym ord c).1 := by
  intro a b p hp
  rw [checkOrderFill] at hp
  by_cases hf : orderFills ord c = true
  · simp only [hf, if_true] at hp
    by_cases hab : a = sid ∧ b = sym
    · rw [hab.1, hab.2] at hp
      simp only [upd2_same] at hp
      cases hp
      rfl
    · rw [upd2_other _ _ _ _ _ _ hab] at hp
      exact h a b p hp
  · simp only [hf] at hp
    simp at hp
    exact h a b p hp

theorem freshPos_checkPositionExit (s : EngineState) (sid sym : String) (pos : Position)
    (c : Candle) (now : ℚ) (h : FreshPos s) :
    FreshPos (checkPositionExit s sid sym pos c now).1 := by
  cases he : exitSignal pos c with
  | none => simpa [checkPositionExit, he] using h
  | some pr =>
    obtain ⟨ep, r⟩ := pr
    by_cases h0 : ep = 0
    · simpa [checkPositionExit, he, h0] using h
    · simpa [checkPositionExit, he, h0] using
        freshPos_closePosition s sid sym pos (some ep) r (some c.timestamp) now h

theorem freshPos_updateTPSL (s : EngineState) (r : TPSLRequest) (h : FreshPos s) :
    FreshPos (updateTPSL s r).1 := by
  cases hp : s.positions r.strategy_id r.symbol with
  | none => simpa [updateTPSL, hp] using h
  | some pos =>
    intro a b p hq
    rw [updateTPSL] at hq
    simp only [hp] at hq
    by_cases hab : a = r.strategy_id ∧ b = r.symbol
    · rw [hab.1, hab.2] at hq
      simp only [upd2_same] at hq
      cases hq
      exact h _ _ pos hp
    · rw [upd2_other _ _ _ _ _ _ hab] at hq
      exact h a b p hq

theorem freshPos_processSignal (s : EngineState) (sig : SignalData) (now : ℚ)
    (h : FreshPos s) : FreshPos (processSignal s sig now).1 := by
  by_cases ho : sig.action.isOpen = true
  · by_cases hq : truthy sig.price = false
    · simpa [processSignal, ho, hq] using freshPos_addOrder s sig .MARKET h
    · simpa [processSignal, ho, hq] using freshPos_addOrder s sig .LIMIT h
  · cases hp : s.positions sig.strategy_id sig.symbol with
    | none => simpa [processSignal, ho, hp] using h
    | some pos =>
      simpa [processSignal, ho, hp] using
        freshPos_closePosition s sig.strategy_id sig.symbol pos none .SIGNAL none now h

theorem freshPos_processCandle (s : EngineState) (c : Candle) (now : ℚ)
    (h : FreshPos s) : FreshPos (processCandle s c now).1 := by
  simp only [processCandle]
  cases ho : s.orders c.strategy_id c.symbol with
  | none =>
    cases hp : s.positions c.strategy_id c.symbol with
    | none => simpa [ho, hp] using h
    | some p =>
      simpa [ho, hp] using freshPos_checkPositionExit s c.strategy_id c.symbol p c now h
  | some o =>
    have h1 := freshPos_checkOrderFill s c.strategy_id c.symbol o c h
    cases hp : (checkOrderFill s c.strategy_id c.symbol o c).1.positions
        c.strategy_id c.symbol with
    | none => simpa [ho, hp] using h1
    | some p =>
      simpa [ho, hp] using
        freshPos_checkPositionExit _ c.strategy_id c.symbol p c now h1

theorem freshPos_handleEvent (s : EngineState) (e : InEvent) (h : FreshPos s) :
    FreshPos (handleEvent s e).1 := by
  cases e with
  | signal sig now => exact freshPos_processSignal s sig now h
  | candle c now => exact freshPos_processCandle s c now h
  | tpsl r => exact freshPos_updateTPSL s r h

theorem freshPos_runEvents (evs : List InEvent) :
    ∀ s, FreshPos s → FreshPos (runEvents s evs).1 := by
  induction evs with
  | nil => intro s h; exact h
  | cons e es ih =>
    intro s h
    simp only [runEvents]
    exact ih _ (freshPos_handleEvent s e h)

/-! ### Concrete fixtures used by counterexamples and witnesses -/

/-- An `OPEN_LONG` signal with no price (a MARKET open request). -/
def sigOpen : SignalData :=
  { event_id := "e1", strategy_id := "s", symbol := "x", action := .OPEN_LONG,
    risk_pct := none, close_percent := none, price := none, leverage := 1,
    stop_loss := none, take_profit := none }

/-- An `OPEN_LONG` signal with an explicit limit price of 52. -/
def sigLimit : SignalData :=
  { sigOpen with event_id := "e2", price := some 52 }

/-- A `CLOSE_LONG` signal for the same slot. -/
def sigClose : SignalData :=
  { sigOpen with event_id := "e3", action := .CLOSE_LONG }

/-- A benign candle for the slot: open 50, range 49-55. -/
def tick1 : Candle :=
  { strategy_id := "s", symbol := "x", tf := "1m", opn := 50, high := 55, low := 49,
    close := 52, volume := 10, timestamp := 1000 }

/-- The MARKET order stored for `sigOpen`. -/
def mktOrder : Order := Order.ofSignal sigOpen .MARKET

/-- The LIMIT order stored for `sigLimit`. -/
def limOrder : Order := Order.ofSignal sigLimit .LIMIT

/-- Open, fill on a candle, then a second open signal for the now
position-holding slot. -/
def c1Events : List InEvent :=
  [.signal sigOpen 0, .candle tick1 0, .signal sigOpen 0]

/-- Open and fill only: a run in which every open lands on a flat slot. -/
def c1GoodEvents : List InEvent :=
  [.signal sigOpen 0, .candle tick1 0]

/-- The engine state after the MARKET order of `sigOpen` fills on `tick1`:
a Position, no PendingOrder. -/
def s3 : EngineState := (runEvents initState c1GoodEvents).1

/-- The engine state holding only the LIMIT order of `sigLimit`. -/
def s4 : EngineState := (runEvents initState [.signal sigLimit 0]).1

/-- A LONG position, entry 50, stop-loss 45, no take-profit. -/
def pos50 : Position :=
  { strategy_id := "s", symbol := "x", side := .LONG, size := 1, entry_price := 50,
    entry_time := 1000, stop_loss := some 45, take_profit := none,
    unrealised_pnl := 0, last_close := none }

/-- A state holding `pos50` and no orders. -/
def s7 : EngineState :=
  { initState with positions := upd2 initState.positions "s" "x" (some pos50) }

/-- A candle whose low 44 breaches the stop-loss 45 of `pos50`. -/
def tick44 : Candle :=
  { strategy_id := "s", symbol := "x", tf := "1m", opn := 49, high := 50, low := 44,
    close := 45, volume := 10, timestamp := 2000 }

/-- A LONG position whose stop-loss is the (falsy) value 0 and whose
take-profit is 110. -/
def pos6 : Position :=
  { strategy_id := "s", symbol := "x", side := .LONG, size := 1, entry_price := 100,
    entry_time := 0, stop_loss := some 0, take_profit := some 110,
    unrealised_pnl := 0, last_close := none }

/-- A state holding `pos6` and no orders. -/
def s6 : EngineState :=
  { initState with positions := upd2 initState.positions "s" "x" (some pos6) }

/-- A candle breaching both bounds of `pos6`: low 0 <= stop-loss 0 and
high 120 >= take-profit 110. -/
def c6 : Candle :=
  { strategy_id := "s", symbol := "x", tf := "1m", opn := 100, high := 120, low := 0,
    close := 110, volume := 10, timestamp := 2000 }

/-- A TP/SL update request carrying only a `take_profit` key (value 60). -/
def r8 : TPSLRequest :=
  { strategy_id := "s", symbol := "x", stop_loss := none,
    take_profit := some (some 60) }

/-- Like `pos50` but with both bounds set: stop-loss 45, take-profit 55. -/
def pos56 : Position :=
  { pos50 with take_profit := some 55 }

/-- A state holding `pos56` and no orders. -/
def s6b : EngineState :=
  { initState with positions := upd2 initState.positions "s" "x" (some pos56) }

/-- A candle breaching both bounds of `pos56`: low 44 and high 56. -/
def tick44x : Candle :=
  { tick44 with high := 56 }

/-! ### Claim C1 -/

/-- Claim C1 (counterexample): the slot invariant fails on the code as
stated.  After an open signal, a fill, and a second open signal, the slot
`("s", "x")` holds a PendingOrder and a Position simultaneously, because
`process_signal` installs an order without checking for an existing
Position. -/
theorem spec_c1_counterexample :
    ((runEvents initState c1Events).1.orders "s" "x").isSome = true ∧
    ((runEvents initState c1Events).1.positions "s" "x").isSome = true := by
  decide

/-- Claim C1 (amended): for every event sequence in which each open signal
arrives while its slot holds no Position, every reachable state has no slot
holding both a PendingOrder and a Position. -/
theorem spec_c1_amended (evs : List InEvent) (h : goodRun initState evs = true)
    (a b : String) :
    (runEvents initState evs).1.orders a b = none ∨
    (runEvents initState evs).1.positions a b = none :=
  noBoth_runEvents evs initState noBoth_init h a b

/-- Witness for the amended claim C1 at the open-then-fill run. -/
theorem spec_c1_witness :
    goodRun initState c1GoodEvents = true ∧
    ((runEvents initState c1GoodEvents).1.orders "s" "x" = none ∨
     (runEvents initState c1GoodEvents).1.positions "s" "x" = none) :=
  ⟨by decide, spec_c1_amended c1GoodEvents (by decide) "s" "x"⟩

/-! ### Claim C2 -/

/-- Claim C2 (counterexample): the claimed per-handler effect order
(memory, then Ledger, then Mirror, then publish) fails on the order-fill
handler: processing a tick against a slot holding a MARKET order produces
the trace memory, memory, publish, Ledger, Mirror, Mirror. -/
theorem spec_c2_counterexample :
    specOrdered ((processCandle (runEvents initState [.signal sigOpen 0]).1
      tick1 0).2) = false := by
  decide

/-- Claim C2 (amended): on an order fill the effects occur in the source
order memory, memory, publish, Ledger, Mirror, Mirror; on a position close
they occur in the source order Ledger, memory, Mirror, publish, publish.
Neither handler follows the claimed memory-Ledger-Mirror-publish order. -/
theorem spec_c2_amended (s : EngineState) (sid sym : String) (ord : Order)
    (c : Candle) (pos : Position) (po : Option ℚ) (r : Reason) (ts : Option ℚ)
    (now : ℚ) (hf : orderFills ord c = true) :
    ((checkOrderFill s sid sym ord c).2.map (fun e => effKind e) =
      [.mem, .mem, .publishNotice, .ledger, .mirror, .mirror]) ∧
    ((closePosition s sid sym pos po r ts now).2.map (fun e => effKind e) =
      [.ledger, .mem, .mirror, .publishNotice, .publishNotice]) := by
  constructor
  · simp [checkOrderFill, hf, effKind]
  · simp [closePosition, effKind]

/-- Witness for the amended claim C2 at a concrete fill and a concrete
close. -/
theorem spec_c2_witness :
    orderFills mktOrder tick1 = true ∧
    (((checkOrderFill initState "s" "x" mktOrder tick1).2.map (fun e => effKind e) =
        [.mem, .mem, .publishNotice, .ledger, .mirror, .mirror]) ∧
     ((closePosition initState "s" "x" pos50 none .SIGNAL none 0).2.map
        (fun e => effKind e) =
        [.ledger, .mem, .mirror, .publishNotice, .publishNotice])) :=
  ⟨by decide,
   spec_c2_amended initState "s" "x" mktOrder tick1 pos50 none .SIGNAL none 0
     (by decide)⟩

/-! ### Claim C3 -/

/-- Claim C3 (counterexample): an open signal for a slot already holding a
Position is not a no-op: on the state after a fill, processing `sigOpen`
again installs a PendingOrder next to the existing Position. -/
theorem spec_c3_counterexample :
    (s3.positions "s" "x").isSome = true ∧
    s3.orders "s" "x" = none ∧
    ((processSignal s3 sigOpen 0).1.orders "s" "x").isSome = true := by
  decide

/-- Claim C3 (amended): an open signal unconditionally installs a
PendingOrder for its slot (MARKET when the price field is falsy, LIMIT
otherwise), overwriting any PendingOrder already there, while the positions
map and every other slot of the orders map are unchanged. -/
theorem spec_c3_amended (s : EngineState) (sig : SignalData) (now : ℚ)
    (ho : sig.action.isOpen = true) :
    (processSignal s sig now).1.orders sig.strategy_id sig.symbol =
      some (Order.ofSignal sig (if truthy sig.price then .LIMIT else .MARKET)) ∧
    (processSignal s sig now).1.positions = s.positions ∧
    (∀ a b, ¬(a = sig.strategy_id ∧ b = sig.symbol) →
      (processSignal s sig now).1.orders a b = s.orders a b) := by
  cases hq : truthy sig.price with
  | false =>
    refine ⟨?_, ?_, ?_⟩
    · simp [processSignal, ho, hq, addOrder, upd2_same]
    · simp [processSignal, ho, hq, addOrder]
    · intro a b hab
      simp [processSignal, ho, hq, addOrder, upd2_other _ _ _ _ _ _ hab]
  | true =>
    refine ⟨?_, ?_, ?_⟩
    · simp [processSignal, ho, hq, addOrder, upd2_same]
    · simp [processSignal, ho, hq, addOrder]
    · intro a b hab
      simp [processSignal, ho, hq, addOrder, upd2_other _ _ _ _ _ _ hab]

/-- Witness for the amended claim C3: the second open signal of the C1
scenario installs a fresh MARKET order over the occupied slot. -/
theorem spec_c3_witness :
    sigOpen.action.isOpen = true ∧
    (processSignal s3 sigOpen 0).1.orders sigOpen.strategy_id sigOpen.symbol =
      some (Order.ofSignal sigOpen (if truthy sigOpen.price then .LIMIT else .MARKET)) :=
  ⟨by decide, (spec_c3_amended s3 sigOpen 0 (by decide)).1⟩

/-! ### Claim C4 -/

theorem processCandle_orders_of_some (s : EngineState) (c : Candle) (now : ℚ)
    (o : Order) (hs : s.orders c.strategy_id c.symbol = some o) :
    (processCandle s c now).1.orders =
      (checkOrderFill s c.strategy_id c.symbol o c).1.orders := by
  simp only [processCandle, hs]
  cases hp : (checkOrderFill s c.strategy_id c.symbol o c).1.positions
      c.strategy_id c.symbol with
  | none => simp [hp]
  | some p => simp [hp, checkPositionExit_orders]

/-- Claim C4: a slot holding a pending LIMIT order at price P fills on a
processed tick iff `tick.low <= P <= tick.high`, and on fill the resulting
Position's entry price is exactly P. -/
theorem spec_c4 (s : EngineState) (sid sym : String) (ord : Order) (c : Candle)
    (P : ℚ) (hty : ord.order_type = .LIMIT) (hP : ord.price = some P)
    (hs : s.orders sid sym = some ord) :
    ((checkOrderFill s sid sym ord c).1.orders sid sym = none ↔
      (c.low ≤ P ∧ P ≤ c.high)) ∧
    ((c.low ≤ P ∧ P ≤ c.high) →
      (checkOrderFill s sid sym ord c).1.positions sid sym =
        some (mkFilledPos sid sym ord P c)) ∧
    (mkFilledPos sid sym ord P c).entry_price = P := by
  have hf : orderFills ord c = decide (c.low ≤ P ∧ P ≤ c.high) := by
    simp [orderFills, hty, hP]
  have hfp : fillPrice ord c = P := by
    simp [fillPrice, hty, hP]
  by_cases hcross : c.low ≤ P ∧ P ≤ c.high
  · have hft : orderFills ord c = true := by
      rw [hf]
      simpa using hcross
    refine ⟨⟨fun _ => hcross, fun _ => ?_⟩, fun _ => ?_, rfl⟩
    · simp [checkOrderFill, hft, upd2_same]
    · have h1 : (checkOrderFill s sid sym ord c).1.positions sid sym =
          some (mkFilledPos sid sym ord (fillPrice ord c) c) := by
        simp [checkOrderFill, hft, upd2_same]
      rw [hfp] at h1
      exact h1
  · have hff : orderFills ord c = false := by
      rw [hf]
      simpa using hcross
    refine ⟨⟨fun hnone => ?_, fun hc => absurd hc hcross⟩,
      fun hc => absurd hc hcross, rfl⟩
    exfalso
    simp [checkOrderFill, hff, hs] at hnone

/-- Witness for claim C4: the LIMIT order at 52 fills on `tick1`
(range 49-55) with entry price exactly 52. -/
theorem spec_c4_witness :
    (limOrder.order_type = OrderType.LIMIT ∧ limOrder.price = some 52 ∧
      s4.orders "s" "x" = some limOrder) ∧
    ((checkOrderFill s4 "s" "x" limOrder tick1).1.orders "s" "x" = none ↔
      (tick1.low ≤ (52 : ℚ) ∧ (52 : ℚ) ≤ tick1.high)) :=
  ⟨⟨by decide, by decide, by decide⟩,
   (spec_c4 s4 "s" "x" limOrder tick1 52 (by decide) (by decide) (by decide)).1⟩

/-! ### Claim C5 -/

/-- The engine state holding only the MARKET order of `sigOpen`. -/
def s5 : EngineState := (runEvents initState [.signal sigOpen 0]).1

/-- Claim C5: a pending MARKET order fills on the first tick processed for
its slot, and the resulting Position's entry price is that tick's open. -/
theorem spec_c5 (s : EngineState) (ord : Order) (c : Candle) (now : ℚ)
    (hty : ord.order_type = .MARKET)
    (hs : s.orders c.strategy_id c.symbol = some ord) :
    (checkOrderFill s c.strategy_id c.symbol ord c).1.orders
      c.strategy_id c.symbol = none ∧
    (checkOrderFill s c.strategy_id c.symbol ord c).1.positions
      c.strategy_id c.symbol =
      some (mkFilledPos c.strategy_id c.symbol ord c.opn c) ∧
    (mkFilledPos c.strategy_id c.symbol ord c.opn c).entry_price = c.opn ∧
    (processCandle s c now).1.orders c.strategy_id c.symbol = none := by
  have hft : orderFills ord c = true := by
    simp [orderFills, hty]
  have hfp : fillPrice ord c = c.opn := by
    simp [fillPrice, hty]
  refine ⟨?_, ?_, rfl, ?_⟩
  · simp [checkOrderFill, hft, upd2_same]
  · have h1 : (checkOrderFill s c.strategy_id c.symbol ord c).1.positions
        c.strategy_id c.symbol =
        some (mkFilledPos c.strategy_id c.symbol ord (fillPrice ord c) c) := by
      simp [checkOrderFill, hft, upd2_same]
    rw [hfp] at h1
    exact h1
  · rw [processCandle_orders_of_some s c now ord hs]
    simp [checkOrderFill, hft, upd2_same]

/-- Witness for claim C5: the MARKET order of `sigOpen` fills on `tick1`
at the open price 50. -/
theorem spec_c5_witness :
    (mktOrder.order_type = OrderType.MARKET ∧
      s5.orders tick1.strategy_id tick1.symbol = some mktOrder) ∧
    (checkOrderFill s5 tick1.strategy_id tick1.symbol mktOrder tick1).1.positions
      tick1.strategy_id tick1.symbol =
      some (mkFilledPos tick1.strategy_id tick1.symbol mktOrder tick1.opn tick1) :=
  ⟨⟨by decide, by decide⟩,
   (spec_c5 s5 mktOrder tick1 0 (by decide) (by decide)).2.1⟩

/-! ### Claim C6 -/

/-- Claim C6 (counterexample): with stop-loss 0 (a set value that is falsy
in Python) and take-profit 110, a candle satisfying both the SL condition
(low 0 <= 0) and the TP condition (high 120 >= 110) closes the position
with reason TP at 110, not with reason SL at the stop-loss value. -/
theorem spec_c6_counterexample :
    pos6.stop_loss = some 0 ∧ pos6.take_profit = some 110 ∧
    pos6.side = Side.LONG ∧ c6.low ≤ (0 : ℚ) ∧ c6.high ≥ (110 : ℚ) ∧
    ((checkPositionExit s6 "s" "x" pos6 c6 0).2.filterMap effTrade).map
      (fun t => (t.reason, t.exit_price)) = [(Reason.TP, 110)] := by
  decide

/-- Claim C6 (amended): for a Position with both bounds set and a nonzero
stop-loss, a tick satisfying both the SL and the TP condition closes the
position with reason SL and exit price equal to the stop-loss value. -/
theorem spec_c6_amended (s : EngineState) (sid sym : String) (pos : Position)
    (c : Candle) (now : ℚ) (sl' tp' : ℚ)
    (hsl : pos.stop_loss = some sl') (hsl0 : sl' ≠ 0)
    (_htp : pos.take_profit = some tp')
    (hcond : (pos.side = .LONG ∧ c.low ≤ sl' ∧ c.high ≥ tp') ∨
             (pos.side = .SHORT ∧ c.high ≥ sl' ∧ c.low ≤ tp')) :
    ((checkPositionExit s sid sym pos c now).2.filterMap effTrade).map
      (fun t => (t.reason, t.exit_price)) = [(Reason.SL, sl')] ∧
    (checkPositionExit s sid sym pos c now).1.positions sid sym = none := by
  have htr : truthy (some sl') = true := by
    simp [truthy, hsl0]
  have he : exitSignal pos c = some (sl', .SL) := by
    rcases hcond with ⟨hside, h1, _⟩ | ⟨hside, h1, _⟩
    · simp [exitSignal, hside, hsl, htr, h1]
    · simp [exitSignal, hside, hsl, htr, h1]
  refine ⟨?_, ?_⟩
  · simp [checkPositionExit, he, hsl0, closePosition, effTrade, htr]
  · simp [checkPositionExit, he, hsl0, closePosition, upd2_same]

/-- Witness for the amended claim C6: LONG, stop-loss 45, take-profit 55,
candle low 44 and high 56 trigger both; the close is SL at 45. -/
theorem spec_c6_witness :
    (pos56.stop_loss = some 45 ∧ (45 : ℚ) ≠ 0 ∧ pos56.take_profit = some 55 ∧
      (pos56.side = Side.LONG ∧ tick44x.low ≤ (45 : ℚ) ∧
        tick44x.high ≥ (55 : ℚ))) ∧
    ((checkPositionExit s6b "s" "x" pos56 tick44x 0).2.filterMap effTrade).map
      (fun t => (t.reason, t.exit_price)) = [(Reason.SL, 45)] :=
  ⟨⟨by decide, by decide, by decide, by decide, by decide, by decide⟩,
   (spec_c6_amended s6b "s" "x" pos56 tick44x 0 45 55 (by decide) (by decide)
      (by decide) (Or.inl ⟨by decide, by decide, by decide⟩)).1⟩

/-! ### Claim C7 -/

/-- Claim C7: replaying the same terminal tick against a slot whose
Position was closed by the first processing is a no-op: the second
processing changes no state and produces no effects (in particular no
second ClosedTrade). -/
theorem spec_c7 (s : EngineState) (c : Candle) (now : ℚ)
    (ho : s.orders c.strategy_id c.symbol = none)
    (hp : (processCandle s c now).1.positions c.strategy_id c.symbol = none) :
    processCandle (processCandle s c now).1 c now = ((processCandle s c now).1, []) := by
  have ho1 : (processCandle s c now).1.orders c.strategy_id c.symbol = none := by
    rw [processCandle_orders_of_none s c now ho]
    exact ho
  generalize (processCandle s c now).1 = s1 at ho1 hp ⊢
  simp [processCandle, ho1, hp]

/-- Witness for claim C7: `tick44` closes `pos50` (stop-loss breach), and a
second processing of the same tick is a no-op. -/
theorem spec_c7_witness :
    (s7.orders "s" "x" = none ∧
      (processCandle s7 tick44 0).1.positions "s" "x" = none) ∧
    processCandle (processCandle s7 tick44 0).1 tick44 0 =
      ((processCandle s7 tick44 0).1, []) :=
  ⟨⟨by decide, by decide⟩, spec_c7 s7 tick44 0 (by decide) (by decide)⟩

/-! ### Claim C8 -/

/-- Claim C8: a TP/SL update request changes exactly the fields whose keys
are present in the request; an absent field is left untouched, every other
field of the Position and every other slot are unchanged, and with no
Position for the slot the request has no effect at all. -/
theorem spec_c8 (s : EngineState) (r : TPSLRequest) :
    (s.positions r.strategy_id r.symbol = none → updateTPSL s r = (s, [])) ∧
    (∀ pos, s.positions r.strategy_id r.symbol = some pos →
      let pos' : Position :=
        { pos with
          stop_loss := match r.stop_loss with | some v => v | none => pos.stop_loss,
          take_profit :=
            match r.take_profit with | some v => v | none => pos.take_profit }
      (updateTPSL s r).1.positions r.strategy_id r.symbol = some pos' ∧
      pos'.side = pos.side ∧ pos'.size = pos.size ∧
      pos'.entry_price = pos.entry_price ∧ pos'.entry_time = pos.entry_time ∧
      (r.stop_loss = none → pos'.stop_loss = pos.stop_loss) ∧
      (r.take_profit = none → pos'.take_profit = pos.take_profit) ∧
      (∀ a b, ¬(a = r.strategy_id ∧ b = r.symbol) →
        (updateTPSL s r).1.positions a b = s.positions a b) ∧
      (updateTPSL s r).1.orders = s.orders) := by
  constructor
  · intro hp
    simp [updateTPSL, hp]
  · intro pos hp
    refine ⟨?_, rfl, rfl, rfl, rfl, ?_, ?_, ?_, ?_⟩
    · simp [updateTPSL, hp, upd2_same]
    · intro h0
      simp [h0]
    · intro h0
      simp [h0]
    · intro a b hab
      simp [updateTPSL, hp, upd2_other _ _ _ _ _ _ hab]
    · simp [updateTPSL, hp]

/-- Witness for claim C8: the request `r8` (take-profit key only, value 60)
against `pos56` keeps the stop-loss 45 and every other field, and only
changes the take-profit to 60. -/
theorem spec_c8_witness :
    (s6b.positions "s" "x" = some pos56 ∧ r8.stop_loss = none) ∧
    (updateTPSL s6b r8).1.positions "s" "x" =
      some { pos56 with take_profit := some 60 } := by
  refine ⟨⟨by decide, by decide⟩, ?_⟩
  have h := ((spec_c8 s6b r8).2 pos56 (by decide)).1
  exact h

/-! ### Claim C9 -/

/-- Claim C9: from any reachable engine state, every signal-driven close
records pnl 0 with exit price equal to the entry price, because the
price override is absent and the `last_close` fallback key is never
written (every reachable Position has `last_close = none`). -/
theorem spec_c9 :
    (∀ evs a b p, (runEvents initState evs).1.positions a b = some p →
      p.last_close = none) ∧
    (∀ evs sig now, sig.action.isOpen = false →
      ∀ t ∈ (processSignal (runEvents initState evs).1 sig now).2.filterMap effTrade,
        t.pnl = 0 ∧ t.exit_price = t.entry_price) := by
  have hfresh : ∀ evs, FreshPos (runEvents initState evs).1 :=
    fun evs => freshPos_runEvents evs initState freshPos_init
  refine ⟨fun evs => hfresh evs, ?_⟩
  intro evs sig now ho t ht
  cases hp : (runEvents initState evs).1.positions sig.strategy_id sig.symbol with
  | none =>
    rw [processSignal] at ht
    simp [ho, hp] at ht
  | some pos =>
    have hlc : pos.last_close = none := hfresh evs _ _ pos hp
    rw [processSignal] at ht
    simp only [ho, Bool.false_eq_true, if_false, hp] at ht
    simp [closePosition, effTrade, truthy, hlc] at ht
    subst ht
    exact ⟨rfl, rfl⟩

/-- Witness for claim C9: closing the position created by the C1 open-fill
run via a CLOSE signal records pnl 0 and exit price equal to entry. -/
theorem spec_c9_witness :
    sigClose.action.isOpen = false ∧
    (∀ t ∈ (processSignal (runEvents initState c1GoodEvents).1 sigClose 0).2.filterMap
        effTrade, t.pnl = 0 ∧ t.exit_price = t.entry_price) :=
  ⟨by decide, spec_c9.2 c1GoodEvents sigClose 0 (by decide)⟩

/-! ### Claim C10 -/

/-- Claim C10: every position close publishes exactly one TradeTerminalEvent
whose trigger type is the image of the close reason under the literal
mapping of line 213; in particular a SIGNAL close publishes trigger type TP,
the schema admitting only TP and SL. -/
theorem spec_c10 (s : EngineState) (sid sym : String) (pos : Position)
    (po : Option ℚ) (reason : Reason) (ts : Option ℚ) (now : ℚ) :
    ((closePosition s sid sym pos po reason ts now).2.filterMap effTerminal).map
      (fun e => e.trigger_type) = [reasonToTrigger reason] ∧
    reasonToTrigger Reason.SIGNAL = TriggerType.TP := by
  constructor
  · simp [closePosition, effTerminal]
  · rfl

end Agg
